import Mathlib

/-!
A verification development for the `RPG/wizardry.py` tile/raycasting core.

The Python source is shallowly embedded: every float becomes an exact
rational (`ℚ`), Python `int()` truncation becomes `pyInt`, the IEEE
`float('inf')` sentinel used by the DDA marcher becomes `Option ℚ`
(`none` = +inf), and the one place the code could divide by zero
(the perpendicular-distance division after the DDA loop) is modelled
with `Option` so that a division fault shows up as `none`.
Stateful methods become pure state transformers, and the unbounded
`while` loop of `GameRenderer._cast_ray` becomes a fuel-indexed
recursion whose fuel is proved sufficient.
-/

namespace Wizardry

/-- Python `int()` applied to a float: truncation toward zero. -/
def pyInt (q : ℚ) : ℤ := if 0 ≤ q then ⌊q⌋ else -⌊-q⌋

/-- Extended-rational strict comparison, `none` standing for IEEE `+inf`
(the value `float('inf')` takes in `_cast_ray` for a zero ray component).
Under the strictly-inside-a-cell hypotheses used throughout, the NaN that
Python would produce for `0.0 * inf` never arises, so `Option ℚ` is a
faithful model of the floats that actually occur. -/
def xlt : Option ℚ → Option ℚ → Bool
  | some a, some b => decide (a < b)
  | some _, none => true
  | none, _ => false

/-- Extended-rational addition (`inf + x = inf`). -/
def xadd : Option ℚ → Option ℚ → Option ℚ
  | some a, some b => some (a + b)
  | _, _ => none

/-- Multiplication of a (positive) rational by an extended rational;
models `q * inf = inf` for the strictly positive `q` that occur. -/
def xscale (q : ℚ) : Option ℚ → Option ℚ
  | some a => some (q * a)
  | none => none

/-- State created by `DoorBehavior.__init__` (`wizardry.py:319`): `door_open`,
`door_animating`, `door_animation_type` (a Python string or `None`),
`door_animation_progress`. -/
structure DoorBehavior where
  door_open : Bool := false
  door_animating : Bool := false
  door_animation_type : Option String := none
  door_animation_progress : ℚ := 0
deriving DecidableEq

/-- The state a freshly constructed door has. -/
def DoorBehavior.init : DoorBehavior := {}

/-- Embedding of `DoorBehavior.update` (`wizardry.py:328`): while animating, advance
progress by `delta_time * 2.0`; on crossing `1.0` clear `animating`,
toggle `door_open` and clear the animation type (the progress value is
left at its crossing value, not reset). -/
def DoorBehavior.update (b : DoorBehavior) (delta_time : ℚ) : DoorBehavior :=
  if b.door_animating then
    let p := b.door_animation_progress + delta_time * 2
    if 1 ≤ p then
      { door_open := !b.door_open, door_animating := false,
        door_animation_type := none, door_animation_progress := p }
    else
      { b with door_animation_progress := p }
  else b

/-- Embedding of `DoorBehavior.on_interact` (`wizardry.py:336`): a no-op while
animating; otherwise start an animation with progress reset to 0 and the
type chosen from the current `door_open` flag.  (The `game, x, y`
arguments are unused by the source body and omitted.) -/
def DoorBehavior.on_interact (b : DoorBehavior) : DoorBehavior :=
  if !b.door_animating then
    { b with door_animating := true, door_animation_progress := 0,
             door_animation_type := some (if b.door_open then "closing" else "opening") }
  else b

/-- Feed a sequence of frame delta-times to a door, one `update` per frame. -/
def DoorBehavior.feed (b : DoorBehavior) (deltas : List ℚ) : DoorBehavior :=
  deltas.foldl DoorBehavior.update b

/-- One step of the door state machine as driven by the main loop:
either an `on_interact` request or a per-frame `update` with some
delta-time. -/
inductive DoorStep : DoorBehavior → DoorBehavior → Prop where
  | interact (b : DoorBehavior) : DoorStep b b.on_interact
  | update (b : DoorBehavior) (delta_time : ℚ) : DoorStep b (b.update delta_time)

/-- Door states reachable from the freshly constructed door by any
interleaving of `on_interact` and `update` calls. -/
def DoorReachable (b : DoorBehavior) : Prop :=
  Relation.ReflTransGen DoorStep DoorBehavior.init b

/-- State created by `InteractiveFloorBehavior.__init__` (`wizardry.py:349`). -/
structure InteractiveFloorBehavior where
  effect_type : Option String := none
  can_retrigger : Bool := false
  triggered : Bool := false
  trigger_time : ℚ := 0
deriving DecidableEq

/-- Embedding of `InteractiveFloorBehavior.on_player_step` (`wizardry.py:362`).
`now` models `time.time()`.  The returned `Bool` is the source's return
value (`True` = fired; the source also hands a `FlashAnimation` to the
external animation layer exactly when it returns `True`). -/
def InteractiveFloorBehavior.on_player_step (t : InteractiveFloorBehavior) (now : ℚ) :
    Bool × InteractiveFloorBehavior :=
  if !t.triggered || t.can_retrigger then
    (true, { t with triggered := true, trigger_time := now })
  else
    (false, t)

/-- Repeated `on_player_step` calls at timestamps `times`, collecting the
fired/no-op results in order together with the final state. -/
def InteractiveFloorBehavior.run_steps (t : InteractiveFloorBehavior) (times : List ℚ) :
    List Bool × InteractiveFloorBehavior :=
  match times with
  | [] => ([], t)
  | τ :: rest =>
    let r := t.on_player_step τ
    let r' := r.2.run_steps rest
    (r.1 :: r'.1, r'.2)

/-- The two behavior classes a `MapCell.behavior` slot can hold
(`isinstance` dispatch in the source becomes a sum type). -/
inductive CellBehavior where
  | door (d : DoorBehavior)
  | ifloor (t : InteractiveFloorBehavior)
deriving DecidableEq

/-- Embedding of `MapCell` (`wizardry.py:450`): the renderer back-reference of the
source is replaced by pure rendering functions of the behavior state. -/
structure MapCell where
  is_wall : Bool := false
  texture_id : String := "floor"
  behavior : Option CellBehavior := none
deriving DecidableEq

/-- The conjunction `isinstance(cell.behavior, DoorBehavior) and
cell.behavior.door_open` from `GameMap.is_wall`. -/
def MapCell.door_is_open (c : MapCell) : Bool :=
  match c.behavior with
  | some (.door d) => d.door_open
  | _ => false

/-- The condition under which `_cast_ray` stops at a door cell
(`wizardry.py:1157`): `isinstance(cell.behavior, DoorBehavior) and
(not cell.behavior.door_open or cell.behavior.door_animating)`. -/
def MapCell.door_blocking (c : MapCell) : Bool :=
  match c.behavior with
  | some (.door d) => !d.door_open || d.door_animating
  | _ => false

/-- Embedding of `GameMap` (`wizardry.py:504`); the row-major `grid` list is modelled
as a total function on integer indices (the source only ever reads it
through the `is_valid_position` guard). -/
structure GameMap where
  width : ℤ := 10
  height : ℤ := 10
  grid : ℤ → ℤ → MapCell

/-- Embedding of `GameMap.is_valid_position` (`wizardry.py:530`):
`0 <= x < self.height and 0 <= y < self.width`. -/
def GameMap.is_valid_position (m : GameMap) (x y : ℤ) : Bool :=
  decide (0 ≤ x ∧ x < m.height ∧ 0 ≤ y ∧ y < m.width)

/-- Embedding of `GameMap.is_wall` (`wizardry.py:533`): out of bounds is a wall; an
in-bounds cell is a wall unless it is a door whose `door_open` is set. -/
def GameMap.is_wall (m : GameMap) (x y : ℤ) : Bool :=
  if !(m.is_valid_position x y) then true
  else (m.grid x y).is_wall && !((m.grid x y).door_is_open)

/-- The passability query of the spec is the negation of `is_wall`. -/
def GameMap.is_passable (m : GameMap) (x y : ℤ) : Bool := !(m.is_wall x y)

/-- Embedding of `GameMap.get_cell` (`wizardry.py:538`): `self.grid[x][y]` when the
position is valid, Python `None` (here `none`) otherwise. -/
def GameMap.get_cell (m : GameMap) (x y : ℤ) : Option MapCell :=
  if m.is_valid_position x y then some (m.grid x y) else none

/-- The sentinel `CellFactory.create_wall("outer_wall")` held by
`GameRenderer.boundary_wall` (`wizardry.py:1063`). -/
def boundary_wall : MapCell :=
  { is_wall := true, texture_id := "outer_wall", behavior := none }

/-- State created by `Raycaster.__init__` (`wizardry.py:24`).  `rotate_angle`
(`math.pi / 2`) is used only by the trigonometric `rotate` method, which
is not embedded: the rotation targets it would produce are instead
quantified over (the exact 90-degree targets are rational). -/
structure Raycaster where
  pos_x : ℚ := 3/2
  pos_y : ℚ := 3/2
  dir_x : ℚ := 1
  dir_y : ℚ := 0
  plane_x : ℚ := 0
  plane_y : ℚ := -33/50
  move_distance : ℚ := 1
  target_dir_x : ℚ := 1
  target_dir_y : ℚ := 0
  target_plane_x : ℚ := 0
  target_plane_y : ℚ := -33/50
  rotating : Bool := false
  rotation_speed : ℚ := 1/5
  rotation_progress : ℚ := 0
deriving DecidableEq

/-- Embedding of `Raycaster.update_rotation` (`wizardry.py:51`): while rotating,
advance progress by the fixed per-frame `rotation_speed`; at
`progress >= 1` assign the targets and stop; otherwise overwrite each
direction/plane component with `current * (1 - p) + target * p`. -/
def Raycaster.update_rotation (r : Raycaster) : Raycaster :=
  if !r.rotating then r
  else
    let p := r.rotation_progress + r.rotation_speed
    if 1 ≤ p then
      { r with rotation_progress := p,
               dir_x := r.target_dir_x, dir_y := r.target_dir_y,
               plane_x := r.target_plane_x, plane_y := r.target_plane_y,
               rotating := false }
    else
      { r with rotation_progress := p,
               dir_x := r.dir_x * (1 - p) + r.target_dir_x * p,
               dir_y := r.dir_y * (1 - p) + r.target_dir_y * p,
               plane_x := r.plane_x * (1 - p) + r.target_plane_x * p,
               plane_y := r.plane_y * (1 - p) + r.target_plane_y * p }

/-- Embedding of `Raycaster.move` (`wizardry.py:64`); the `game_map` the source object
holds by reference is passed explicitly.  On acceptance the position is
snapped to the destination cell's center.  Note the body touches only
the `Raycaster` fields: no tile behavior is invoked. -/
def Raycaster.move (r : Raycaster) (m : GameMap) (forward : Bool) : Raycaster :=
  let mv := r.move_distance * (if forward then 1 else -1)
  let new_x := r.pos_x + r.dir_x * mv
  let new_y := r.pos_y + r.dir_y * mv
  if !(m.is_wall (pyInt new_x) (pyInt new_y)) then
    { r with pos_x := (pyInt new_x : ℚ) + 1/2, pos_y := (pyInt new_y : ℚ) + 1/2 }
  else r

/-- Embedding of `RenderContext` (`wizardry.py:11`). -/
structure RenderContext where
  side : ℕ
  ray_dir_x : ℚ
  ray_dir_y : ℚ
  wall_x : ℚ
  distance : ℚ
  player_dir_x : ℚ
  player_dir_y : ℚ
deriving DecidableEq

/-- The door-orientation classification inside `DoorRenderer.render_3d`
(`wizardry.py:155`-`169`): dot product of the player direction with the
door's outward normal; `|dot| < 0.5` is "vertical", otherwise
"horizontal". -/
def DoorRenderer.door_direction (context : RenderContext) : String :=
  let door_normal_x : ℚ := if context.side = 0 then (if 0 ≤ context.ray_dir_x then 1 else -1) else 0
  let door_normal_y : ℚ := if context.side = 0 then 0 else (if 0 ≤ context.ray_dir_y then 1 else -1)
  let dot_product := context.player_dir_x * door_normal_x + context.player_dir_y * door_normal_y
  if |dot_product| < 1/2 then "vertical" else "horizontal"

/-- The mid-animation half-width computed at `wizardry.py:176`:
`0.5 * (progress if opening else 1 - progress)`. -/
def DoorBehavior.leaf_threshold (b : DoorBehavior) : ℚ :=
  (1/2) * (if b.door_animation_type = some "opening"
           then b.door_animation_progress
           else 1 - b.door_animation_progress)

/-- The distance-dependent frame band thickness of `wizardry.py:171`:
`0.15 if distance >= 1.5 else 0.25`. -/
def DoorRenderer.frame_thickness (context : RenderContext) : ℚ :=
  if 3/2 ≤ context.distance then 3/20 else 1/4

/-- Embedding of `DoorRenderer.render_3d` (`wizardry.py:154`): a fixed frame band at
both edges (thickness 0.15 far / 0.25 near), then for an animating door
the region within `leaf_threshold` of the center renders `" "` and the
region outside it renders the directional opaque character; a
non-animating door renders `" "` when open and the opaque character when
closed. -/
def DoorRenderer.render_3d (b : DoorBehavior) (context : RenderContext) : String :=
  if context.wall_x < DoorRenderer.frame_thickness context ∨
     1 - DoorRenderer.frame_thickness context < context.wall_x then "▐"
  else if b.door_animating then
    if context.wall_x < 1/2 - b.leaf_threshold ∨ 1/2 + b.leaf_threshold < context.wall_x then
      (if DoorRenderer.door_direction context = "vertical" then "|" else "-")
    else " "
  else if b.door_open then " "
  else (if DoorRenderer.door_direction context = "vertical" then "|" else "-")

/-- Embedding of `RaycastResult` (`wizardry.py:78`). -/
structure RaycastResult where
  cell : MapCell
  side : ℕ
  ray_dir_x : ℚ
  ray_dir_y : ℚ
  wall_x : ℚ
  distance : ℚ
  player_dir_x : ℚ
  player_dir_y : ℚ
deriving DecidableEq

/-- Per-axis step length `abs(1 / ray_dir) if ray_dir != 0 else float('inf')`
(`wizardry.py:1118`). -/
def ray_length (rd : ℚ) : Option ℚ :=
  if rd ≠ 0 then some |1 / rd| else none

/-- Step sign `1 if ray_dir >= 0 else -1` (`wizardry.py:1121`). -/
def stepOf (rd : ℚ) : ℤ := if 0 ≤ rd then 1 else -1

/-- The mutable state of the `while` loop in `_cast_ray`
(`wizardry.py:1139`): map coordinates, accumulated side distances, the
last stepped side, and the `cell` / `door_cell` references. -/
structure CastState where
  map_x : ℤ
  map_y : ℤ
  side_dist_x : Option ℚ
  side_dist_y : Option ℚ
  side : ℕ
  cell : Option MapCell
  door_cell : Option MapCell
deriving DecidableEq

/-- One DDA step (`wizardry.py:1140`-`1147`): advance the axis with the
strictly smaller accumulated side distance (ties and the infinite
sentinel both fall to the y-branch). -/
def castStep (rdx rdy : ℚ) (s : CastState) : CastState :=
  if xlt s.side_dist_x s.side_dist_y then
    { s with side_dist_x := xadd s.side_dist_x (ray_length rdx),
             map_x := s.map_x + stepOf rdx, side := 0 }
  else
    { s with side_dist_y := xadd s.side_dist_y (ray_length rdy),
             map_y := s.map_y + stepOf rdy, side := 1 }

/-- Embedding of the `while hit == 0` loop of `_cast_ray` (`wizardry.py:1139`-`1162`)
as a fuel-indexed recursion: step, then stop with the boundary wall on
an out-of-bounds position, stop recording `door_cell` on a
not-fully-open door, stop on a wall, and otherwise continue.  `none`
means the fuel ran out (the source loop would still be running). -/
def castLoop (rdx rdy : ℚ) (m : GameMap) : ℕ → CastState → Option CastState
  | 0, _ => none
  | fuel + 1, s =>
    let t := castStep rdx rdy s
    if !(m.is_valid_position t.map_x t.map_y) then
      some { t with cell := some boundary_wall }
    else
      let c := m.grid t.map_x t.map_y
      let t' := { t with cell := some c }
      if c.door_blocking then
        some { t' with door_cell := some c }
      else if c.is_wall then
        some t'
      else
        castLoop rdx rdy m fuel t'

/-- The fuel given to the loop; proved sufficient for any start inside
the grid (each of the at most `height` x-steps and `width` y-steps moves
monotonically toward a boundary). -/
def castFuel (m : GameMap) : ℕ := (m.height + m.width).toNat + 1

/-- The state the DDA loop starts from (`wizardry.py:1115`-`1132`):
map coordinates from `int()`-truncation of the position, side distances
as the fractional offsets scaled by the per-axis step lengths. -/
def castInit (pos_x pos_y rdx rdy : ℚ) : CastState :=
  { map_x := pyInt pos_x, map_y := pyInt pos_y,
    side_dist_x :=
      if rdx < 0 then xscale (pos_x - (pyInt pos_x : ℚ)) (ray_length rdx)
      else xscale ((pyInt pos_x : ℚ) + 1 - pos_x) (ray_length rdx),
    side_dist_y :=
      if rdy < 0 then xscale (pos_y - (pyInt pos_y : ℚ)) (ray_length rdy)
      else xscale ((pyInt pos_y : ℚ) + 1 - pos_y) (ray_length rdy),
    side := 0, cell := none, door_cell := none }

/-- The post-loop part of `_cast_ray` (`wizardry.py:1164`-`1190`):
perpendicular distance along the terminating side (`none` models the
`ZeroDivisionError` a zero divisor would raise), the texture coordinate
`wall_x`, and the result record whose visible surface is `door_cell`
when one was recorded, else `cell`, else the boundary wall. -/
def castFinish (pos_x pos_y dir_x dir_y rdx rdy : ℚ) (s : CastState) : Option RaycastResult :=
  match (if s.side = 0 then
           if rdx = 0 then none
           else some (((s.map_x : ℚ) - pos_x + (1 - (stepOf rdx : ℚ)) / 2) / rdx)
         else
           if rdy = 0 then none
           else some (((s.map_y : ℚ) - pos_y + (1 - (stepOf rdy : ℚ)) / 2) / rdy)) with
  | none => none
  | some perp =>
    some { cell := (match s.door_cell with | some d => d | none => s.cell.getD boundary_wall),
           side := s.side,
           ray_dir_x := rdx, ray_dir_y := rdy,
           wall_x := (if s.side = 0 then pos_y + perp * rdy else pos_x + perp * rdx) -
                     ⌊(if s.side = 0 then pos_y + perp * rdy else pos_x + perp * rdx)⌋,
           distance := perp,
           player_dir_x := dir_x, player_dir_y := dir_y }

/-- Embedding of `GameRenderer._cast_ray` (`wizardry.py:1114`): set up the DDA state
from the raycaster's position, run the loop, then compute the hit
record.  `none` models fuel exhaustion or a division fault, neither of
which occurs under the preconditions proved below. -/
def castRay (m : GameMap) (pos_x pos_y dir_x dir_y rdx rdy : ℚ) : Option RaycastResult :=
  match castLoop rdx rdy m (castFuel m) (castInit pos_x pos_y rdx rdy) with
  | none => none
  | some s => castFinish pos_x pos_y dir_x dir_y rdx rdy s

/-- Remaining in-bounds coordinates on one axis in the (fixed) stepping
direction; reaching `0` means the next step on that axis leaves the
grid. -/
def xRem (rd : ℚ) (bound mx : ℤ) : ℕ :=
  (if 0 ≤ rd then bound - mx else mx + 1).toNat

/-- Termination measure for the DDA loop: total remaining in-bounds
steps over both axes. -/
def castMeasure (rdx rdy : ℚ) (m : GameMap) (s : CastState) : ℕ :=
  xRem rdx m.height s.map_x + xRem rdy m.width s.map_y

/-- Loop invariant of the DDA: each accumulated side distance is finite
exactly when its ray component is nonzero, and each map coordinate has
moved monotonically from the starting cell in the stepping direction. -/
def CastInv (rdx rdy pos_x pos_y : ℚ) (s : CastState) : Prop :=
  (s.side_dist_x.isSome = true ↔ rdx ≠ 0) ∧
  (s.side_dist_y.isSome = true ↔ rdy ≠ 0) ∧
  (0 ≤ rdx → pyInt pos_x ≤ s.map_x) ∧ (rdx < 0 → s.map_x ≤ pyInt pos_x) ∧
  (0 ≤ rdy → pyInt pos_y ≤ s.map_y) ∧ (rdy < 0 → s.map_y ≤ pyInt pos_y)

/-- What holds of the loop state right after any step: the recorded side
is 0 or 1, the ray component of the recorded side is nonzero, and the
perpendicular-distance formula of `_cast_ray` evaluated there is
strictly positive. -/
def CastPerp (rdx rdy pos_x pos_y : ℚ) (s : CastState) : Prop :=
  (s.side = 0 ∨ s.side = 1) ∧
  (s.side = 0 → rdx ≠ 0 ∧ 0 < ((s.map_x : ℚ) - pos_x + (1 - (stepOf rdx : ℚ)) / 2) / rdx) ∧
  (s.side = 1 → rdy ≠ 0 ∧ 0 < ((s.map_y : ℚ) - pos_y + (1 - (stepOf rdy : ℚ)) / 2) / rdy)

/-- Postcondition of the DDA loop: a surface cell was recorded and the
perpendicular-distance facts of `CastPerp` hold. -/
def CastPost (rdx rdy pos_x pos_y : ℚ) (s : CastState) : Prop :=
  s.cell.isSome = true ∧ CastPerp rdx rdy pos_x pos_y s

/-- A door state reached from a fresh door by: interact, feed a full
animation (progress hits 1, door opens), interact again, feed half a
closing animation.  It is mid-closing: `door_open` is still `true`. -/
def closing_door_state : DoorBehavior :=
  (((DoorBehavior.init.on_interact).update (1/2)).on_interact).update (1/4)

/-- A 1×1 map whose single tile is a door holding `closing_door_state`. -/
def closing_door_map : GameMap :=
  { width := 1, height := 1,
    grid := fun _ _ =>
      { is_wall := true, texture_id := "door",
        behavior := some (.door closing_door_state) } }

/-- A 1×1 map holding a plain wall tile. -/
def wall_map : GameMap :=
  { width := 1, height := 1,
    grid := fun _ _ => { is_wall := true, texture_id := "inner_wall", behavior := none } }

/-- A 2×2 map of plain floor tiles. -/
def floor_map : GameMap :=
  { width := 2, height := 2, grid := fun _ _ => {} }

/-- A 1×1 map of plain floor. -/
def tiny_map : GameMap :=
  { width := 1, height := 1, grid := fun _ _ => {} }

/-- A one-shot interactive floor tile, untriggered. -/
def trigger_tile : InteractiveFloorBehavior := { can_retrigger := false }

/-- A 3×3 all-floor map with the one-shot trigger at cell (2,1). -/
def trigger_map : GameMap :=
  { width := 3, height := 3,
    grid := fun x y =>
      if x = 2 ∧ y = 1 then { is_wall := false, behavior := some (.ifloor trigger_tile) }
      else {} }

/-- The default-constructed raycaster: position (1.5, 1.5), facing +x. -/
def step_raycaster : Raycaster := {}

/-- A raycaster state at the instant `rotate(clockwise=True)` returns,
with the exact 90°-rotated targets: dir (1,0) → target (0,-1),
plane (0,-0.66) → target (-0.66,0); rotating, progress 0, speed 0.2. -/
def rot_start : Raycaster :=
  { rotating := true, rotation_progress := 0,
    target_dir_x := 0, target_dir_y := -1,
    target_plane_x := -33/50, target_plane_y := 0 }

/-- A door mid-opening animation at progress 1/2. -/
def anim_door : DoorBehavior :=
  { door_open := false, door_animating := true,
    door_animation_type := some "opening", door_animation_progress := 1/2 }

/-- A render context hitting the exact center (`wall_x = 0.5`) of a far
door face, viewed head-on. -/
def center_context : RenderContext :=
  { side := 0, ray_dir_x := 1, ray_dir_y := 0, wall_x := 1/2, distance := 2,
    player_dir_x := 1, player_dir_y := 0 }

/-- A render context inside the frame bands but away from the center
(`wall_x = 0.2`) of a far door face, viewed head-on. -/
def edge_context : RenderContext :=
  { side := 0, ray_dir_x := 1, ray_dir_y := 0, wall_x := 1/5, distance := 2,
    player_dir_x := 1, player_dir_y := 0 }

/-- A loop state whose next DDA step (an x-step, since the y side
distance is the infinite sentinel) leaves the 1×1 grid. -/
def oob_state : CastState :=
  { map_x := 0, map_y := 0, side_dist_x := some 1, side_dist_y := none,
    side := 0, cell := none, door_cell := none }

theorem xlt_none_left (b : Option ℚ) : xlt none b = false := by
  cases b <;> rfl

theorem xlt_some_none (a : ℚ) : xlt (some a) none = true := rfl

theorem xadd_isSome (a b : Option ℚ) : (xadd a b).isSome = (a.isSome && b.isSome) := by
  cases a <;> cases b <;> rfl

theorem xscale_isSome (q : ℚ) (o : Option ℚ) : (xscale q o).isSome = o.isSome := by
  cases o <;> rfl

theorem ray_length_isSome (rd : ℚ) : (ray_length rd).isSome = true ↔ rd ≠ 0 := by
  by_cases h : rd = 0 <;> simp [ray_length, h]

theorem run_steps_noop (t : InteractiveFloorBehavior) (h1 : t.triggered = true)
    (h2 : t.can_retrigger = false) :
    ∀ times : List ℚ, t.run_steps times = (List.replicate times.length false, t) := by
  intro times
  induction times with
  | nil => rfl
  | cons τ rest ih =>
    simp [InteractiveFloorBehavior.run_steps, InteractiveFloorBehavior.on_player_step,
      h1, h2, ih, List.replicate_succ]

theorem run_steps_all_fire (times : List ℚ) :
    ∀ t : InteractiveFloorBehavior, t.can_retrigger = true →
      (t.run_steps times).1 = List.replicate times.length true := by
  induction times with
  | nil => intro t _; rfl
  | cons τ rest ih =>
    intro t h
    simp only [InteractiveFloorBehavior.run_steps, InteractiveFloorBehavior.on_player_step,
      h, Bool.or_true, if_pos]
    simp only [List.length_cons, List.replicate_succ, List.cons.injEq, true_and]
    exact ih _ rfl

/-- Claim C9: a Trigger with `retriggerable = false` fires exactly on the
first of any sequence of `on_player_step` calls — the first call returns
fired, sets `triggered` and records its timestamp — and every later call
is a no-op returning no-op and leaving the state unchanged; a Trigger
with `retriggerable = true` fires on every call. -/
theorem trigger_fire_contract (t : InteractiveFloorBehavior) :
    (∀ (τ : ℚ) (rest : List ℚ), t.triggered = false → t.can_retrigger = false →
      t.run_steps (τ :: rest) =
        (true :: List.replicate rest.length false,
         { t with triggered := true, trigger_time := τ })) ∧
    (∀ times : List ℚ, t.can_retrigger = true →
      (t.run_steps times).1 = List.replicate times.length true) := by
  constructor
  · intro τ rest h1 h2
    have hfire : t.on_player_step τ = (true, { t with triggered := true, trigger_time := τ }) := by
      simp [InteractiveFloorBehavior.on_player_step, h1]
    have hrest := run_steps_noop { t with triggered := true, trigger_time := τ } rfl h2 rest
    simp [InteractiveFloorBehavior.run_steps, hfire, hrest]
  · intro times h
    exact run_steps_all_fire times t h

theorem trigger_fire_contract_witness :
    trigger_tile.run_steps [3, 7, 9] =
      (true :: List.replicate 2 false, { trigger_tile with triggered := true, trigger_time := 3 }) ∧
    (({ trigger_tile with can_retrigger := true } : InteractiveFloorBehavior).run_steps [3, 7]).1 =
      List.replicate 2 true := by
  refine ⟨?_, ?_⟩
  · exact (trigger_fire_contract trigger_tile).1 3 [7, 9] rfl rfl
  · exact (trigger_fire_contract { trigger_tile with can_retrigger := true }).2 [3, 7] rfl

theorem opening_ne_closing : ("opening" : String) ≠ "closing" := by decide

theorem door_inv_step (b b' : DoorBehavior) (hstep : DoorStep b b')
    (hb : b.door_animating = true →
      (b.door_animation_type = some "opening" → b.door_open = false) ∧
      (b.door_animation_type = some "closing" → b.door_open = true)) :
    b'.door_animating = true →
      (b'.door_animation_type = some "opening" → b'.door_open = false) ∧
      (b'.door_animation_type = some "closing" → b'.door_open = true) := by
  cases hstep with
  | interact =>
    by_cases ha : b.door_animating = true
    · simpa [DoorBehavior.on_interact, ha] using hb
    · have ha' : b.door_animating = false := by simpa using ha
      intro _
      cases hopen : b.door_open <;>
        simp [DoorBehavior.on_interact, ha', hopen, opening_ne_closing,
          opening_ne_closing.symm]
  | update δ =>
    by_cases ha : b.door_animating = true
    · by_cases hp : (1 : ℚ) ≤ b.door_animation_progress + δ * 2
      · simp [DoorBehavior.update, ha, hp]
      · simpa [DoorBehavior.update, ha, hp] using hb
    · have ha' : b.door_animating = false := by simpa using ha
      have hupd : b.update δ = b := by simp [DoorBehavior.update, ha']
      rw [hupd]
      exact hb

/-- Claim C10: in every door state reachable from the initial state by
interleavings of `on_interact` and `update`, an animating door of type
"opening" has `door_open = false` and one of type "closing" has
`door_open = true`; consequently the completion step's unconditional
toggle `door_open := !door_open` lands on the terminal state the
animation type designates. -/
theorem door_animation_invariant (b : DoorBehavior) (hb : DoorReachable b) :
    (b.door_animating = true →
      (b.door_animation_type = some "opening" → b.door_open = false) ∧
      (b.door_animation_type = some "closing" → b.door_open = true)) ∧
    (∀ δ : ℚ, b.door_animating = true → 1 ≤ b.door_animation_progress + δ * 2 →
      (b.door_animation_type = some "opening" → (b.update δ).door_open = true) ∧
      (b.door_animation_type = some "closing" → (b.update δ).door_open = false)) := by
  have hb' : Relation.ReflTransGen DoorStep DoorBehavior.init b := hb
  have hinv : b.door_animating = true →
      (b.door_animation_type = some "opening" → b.door_open = false) ∧
      (b.door_animation_type = some "closing" → b.door_open = true) := by
    clear hb
    induction hb' with
    | refl => intro h; simp [DoorBehavior.init] at h
    | tail _ hstep ih => exact door_inv_step _ _ hstep ih
  refine ⟨hinv, ?_⟩
  intro δ ha hp
  have hopen := (hinv ha).1
  have hclose := (hinv ha).2
  have hupd : (b.update δ).door_open = !b.door_open := by
    simp [DoorBehavior.update, ha, hp]
  constructor
  · intro ht; rw [hupd, hopen ht]; rfl
  · intro ht; rw [hupd, hclose ht]; rfl

theorem door_animation_invariant_witness :
    (DoorBehavior.init.on_interact.door_animation_type = some "opening" →
      DoorBehavior.init.on_interact.door_open = false) ∧
    (DoorBehavior.init.on_interact.update (1/2)).door_open = true := by
  have hreach : DoorReachable DoorBehavior.init.on_interact :=
    Relation.ReflTransGen.single (DoorStep.interact DoorBehavior.init)
  have h := door_animation_invariant DoorBehavior.init.on_interact hreach
  refine ⟨(h.1 (by decide)).1, ?_⟩
  exact ((h.2 (1/2) (by decide) (by norm_num [DoorBehavior.init, DoorBehavior.on_interact])).1) (by decide)

theorem feed_completes (deltas : List ℚ) :
    ∀ b : DoorBehavior, b.door_animating = true → 0 ≤ b.door_animation_progress →
      (∀ d ∈ deltas, 0 < d) → b.door_animation_progress + 2 * deltas.sum = 1 →
      deltas ≠ [] →
      b.feed deltas = { door_open := !b.door_open, door_animating := false,
                        door_animation_type := none, door_animation_progress := 1 } := by
  induction deltas with
  | nil => intro b _ _ _ _ hne; exact absurd rfl hne
  | cons d rest ih =>
    intro b hanim hp hpos hsum _
    rcases rest with _ | ⟨d2, rest2⟩
    · have hend : b.door_animation_progress + d * 2 = 1 := by
        simp at hsum; linarith
      have h1 : (1 : ℚ) ≤ b.door_animation_progress + d * 2 := le_of_eq hend.symm
      simp [DoorBehavior.feed, DoorBehavior.update, hanim, h1, hend]
    · have hrest_pos : 0 < (d2 :: rest2).sum := by
        have h2 : 0 < d2 := hpos d2 (by simp)
        have h3 : 0 ≤ rest2.sum := List.sum_nonneg fun x hx => le_of_lt (hpos x (by simp [hx]))
        simp; linarith
      have hd : 0 < d := hpos d (by simp)
      have hlt : ¬ (1 : ℚ) ≤ b.door_animation_progress + d * 2 := by
        simp only [List.sum_cons] at hsum ⊢
        push_neg
        have : (d2 :: rest2).sum = d2 + rest2.sum := by simp
        simp [List.sum_cons] at hrest_pos
        linarith
      have hmid : b.feed (d :: d2 :: rest2) =
          ({ b with door_animation_progress := b.door_animation_progress + d * 2 } :
            DoorBehavior).feed (d2 :: rest2) := by
        simp [DoorBehavior.feed, DoorBehavior.update, hanim, hlt]
      rw [hmid]
      have := ih { b with door_animation_progress := b.door_animation_progress + d * 2 }
        (by simpa using hanim) (by simp; linarith)
        (fun x hx => hpos x (by simp [List.mem_cons] at hx ⊢; tauto))
        (by simp only [List.sum_cons] at hsum ⊢; linarith)
        (by simp)
      simpa using this

/-- Claim C5 counterexample: from a fresh closed door, interact + feed
exactly one animation of delta-time, interact + feed another: the door
ends closed and not animating, but `door_animation_progress` ends at its
crossing value 1, not reset to 0 — refuting "with progress reset". -/
theorem door_cycle_progress_cex :
    ((((DoorBehavior.init.on_interact).feed [1/2]).on_interact).feed [1/2]).door_open = false ∧
    ((((DoorBehavior.init.on_interact).feed [1/2]).on_interact).feed [1/2]).door_animating = false ∧
    ((((DoorBehavior.init.on_interact).feed [1/2]).on_interact).feed [1/2]).door_animation_progress = 1 ∧
    (1 : ℚ) ≠ 0 := by
  have h : (((DoorBehavior.init.on_interact).feed [1/2]).on_interact).feed [1/2] =
      (⟨false, false, none, 1⟩ : DoorBehavior) := by
    norm_num [DoorBehavior.init, DoorBehavior.on_interact, DoorBehavior.feed,
      DoorBehavior.update]
  exact ⟨by rw [h], by rw [h], by rw [h], by norm_num⟩

/-- Claim C5 (amended): from any closed, non-animating door, interact
then feed one full animation's worth of delta-time (in one positive step
or many positive steps summing to the duration 1/2), interact again and
feed another full animation's worth: the door returns to
`open = false, animating = false`, the animation type is cleared, and
`progress` is left at the crossing value 1 (it is reset to 0 by the next
`on_interact`, not at completion); the end state is the same for every
such split of the delta-time. -/
theorem door_cycle_spec (b0 : DoorBehavior) (l1 l2 : List ℚ)
    (hopen : b0.door_open = false) (hanim : b0.door_animating = false)
    (h1 : ∀ d ∈ l1, 0 < d) (h1s : l1.sum = 1/2) (h1n : l1 ≠ [])
    (h2 : ∀ d ∈ l2, 0 < d) (h2s : l2.sum = 1/2) (h2n : l2 ≠ []) :
    (((b0.on_interact).feed l1).on_interact).feed l2 =
      { door_open := false, door_animating := false,
        door_animation_type := none, door_animation_progress := 1 } := by
  have hi1 : b0.on_interact =
      (⟨false, true, some "opening", 0⟩ : DoorBehavior) := by
    simp [DoorBehavior.on_interact, hanim, hopen]
  have hA : (b0.on_interact).feed l1 =
      (⟨true, false, none, 1⟩ : DoorBehavior) := by
    rw [hi1]
    have h := feed_completes l1 ⟨false, true, some "opening", 0⟩ rfl le_rfl h1
      (by norm_num [h1s]) h1n
    simpa using h
  have hB : ((b0.on_interact).feed l1).on_interact =
      (⟨true, true, some "closing", 0⟩ : DoorBehavior) := by
    rw [hA]; simp [DoorBehavior.on_interact]
  rw [hB]
  have h := feed_completes l2 ⟨true, true, some "closing", 0⟩ rfl le_rfl h2
    (by norm_num [h2s]) h2n
  simpa using h

theorem door_cycle_spec_witness :
    ((((DoorBehavior.init.on_interact).feed [1/4, 1/4]).on_interact).feed [1/2]) =
      { door_open := false, door_animating := false,
        door_animation_type := none, door_animation_progress := 1 } :=
  door_cycle_spec DoorBehavior.init [1/4, 1/4] [1/2] rfl rfl
    (by norm_num) (by norm_num) (by simp)
    (by norm_num) (by norm_num) (by simp)

/-- Claim C4 counterexample: with the exact clockwise-90° targets from
dir (1,0), after two frames of `update_rotation` the rotation is still
in flight at progress 2/5 < 1, yet `dir_x` is 12/25, not the value
`1·(1−2/5) + 0·(2/5) = 3/5` that interpolation from the pre-rotation
direction would give: the code compounds the lerp from the
previous frame's (already interpolated) vectors. -/
theorem update_rotation_lerp_cex :
    ((rot_start.update_rotation).update_rotation).rotating = true ∧
    ((rot_start.update_rotation).update_rotation).rotation_progress = 2/5 ∧
    ((rot_start.update_rotation).update_rotation).rotation_progress < 1 ∧
    ((rot_start.update_rotation).update_rotation).dir_x ≠
      rot_start.dir_x * (1 - 2/5) + rot_start.target_dir_x * (2/5) := by
  have h1 : rot_start.update_rotation =
      { rot_start with rotation_progress := 1/5, dir_x := 4/5, dir_y := -1/5,
                       plane_x := -33/250, plane_y := -66/125 } := by
    norm_num [Raycaster.update_rotation, rot_start]
  have h2 : (rot_start.update_rotation).update_rotation =
      { rot_start with rotation_progress := 2/5, dir_x := 12/25, dir_y := -13/25,
                       plane_x := -429/1250, plane_y := -198/625 } := by
    rw [h1]; norm_num [Raycaster.update_rotation, rot_start]
  rw [h2]
  refine ⟨rfl, rfl, by norm_num, ?_⟩
  norm_num [rot_start]

/-- Claim C4 (amended): while a rotation is in flight, each
`update_rotation` first advances progress by `rotation_speed`; if the
advanced progress is still below 1 it sets each direction/plane
component to the linear interpolation, at the advanced progress value,
between its **current (previous-frame) value** and the target —
compounding frame over frame, not interpolating from the values at the
moment `rotate` was called; once the advanced progress reaches 1 or
more, direction and plane are set exactly to the targets and the
rotation ends. -/
theorem update_rotation_spec (r : Raycaster) (h : r.rotating = true) :
    (r.rotation_progress + r.rotation_speed < 1 →
      r.update_rotation =
        { r with rotation_progress := r.rotation_progress + r.rotation_speed,
                 dir_x := r.dir_x * (1 - (r.rotation_progress + r.rotation_speed)) +
                          r.target_dir_x * (r.rotation_progress + r.rotation_speed),
                 dir_y := r.dir_y * (1 - (r.rotation_progress + r.rotation_speed)) +
                          r.target_dir_y * (r.rotation_progress + r.rotation_speed),
                 plane_x := r.plane_x * (1 - (r.rotation_progress + r.rotation_speed)) +
                            r.target_plane_x * (r.rotation_progress + r.rotation_speed),
                 plane_y := r.plane_y * (1 - (r.rotation_progress + r.rotation_speed)) +
                            r.target_plane_y * (r.rotation_progress + r.rotation_speed) }) ∧
    (1 ≤ r.rotation_progress + r.rotation_speed →
      r.update_rotation =
        { r with rotation_progress := r.rotation_progress + r.rotation_speed,
                 dir_x := r.target_dir_x, dir_y := r.target_dir_y,
                 plane_x := r.target_plane_x, plane_y := r.target_plane_y,
                 rotating := false }) := by
  constructor
  · intro hp
    simp [Raycaster.update_rotation, h, not_le.mpr hp]
  · intro hp
    simp [Raycaster.update_rotation, h, hp]

theorem update_rotation_spec_witness :
    rot_start.rotating = true ∧
    rot_start.rotation_progress + rot_start.rotation_speed < 1 ∧
    rot_start.update_rotation =
      { rot_start with
        rotation_progress := rot_start.rotation_progress + rot_start.rotation_speed,
        dir_x := rot_start.dir_x * (1 - (rot_start.rotation_progress + rot_start.rotation_speed)) +
                 rot_start.target_dir_x * (rot_start.rotation_progress + rot_start.rotation_speed),
        dir_y := rot_start.dir_y * (1 - (rot_start.rotation_progress + rot_start.rotation_speed)) +
                 rot_start.target_dir_y * (rot_start.rotation_progress + rot_start.rotation_speed),
        plane_x := rot_start.plane_x * (1 - (rot_start.rotation_progress + rot_start.rotation_speed)) +
                   rot_start.target_plane_x * (rot_start.rotation_progress + rot_start.rotation_speed),
        plane_y := rot_start.plane_y * (1 - (rot_start.rotation_progress + rot_start.rotation_speed)) +
                   rot_start.target_plane_y * (rot_start.rotation_progress + rot_start.rotation_speed) } :=
  ⟨rfl, by norm_num [rot_start],
   (update_rotation_spec rot_start rfl).1 (by norm_num [rot_start])⟩

/-- Claim C1 counterexample: a door reached from a fresh door by
interact / full opening animation / interact / half a closing animation
is animating (mid-closing), yet the cell holding it is passable, because
`is_wall` consults only the `door_open` flag, which stays `true` until
the closing animation completes — refuting "a door mid-animation,
regardless of direction, is impassable". -/
theorem closing_door_passable_cex :
    closing_door_state.door_animating = true ∧
    closing_door_state.door_animation_type = some "closing" ∧
    closing_door_map.is_passable 0 0 = true := by
  have h : closing_door_state = (⟨true, true, some "closing", 1/2⟩ : DoorBehavior) := by
    norm_num [closing_door_state, DoorBehavior.init, DoorBehavior.on_interact,
      DoorBehavior.update]
  refine ⟨by rw [h], by rw [h], ?_⟩
  simp [GameMap.is_passable, GameMap.is_wall, GameMap.is_valid_position, closing_door_map,
    MapCell.door_is_open, h]

/-- Claim C1 (amended): passability is false for every out-of-bounds
coordinate and every Wall tile; for a Door tile it is true **iff**
`door_open = true` — so a door mid-opening animation (flag still false)
is impassable, but a door mid-closing animation (flag still true)
remains passable until the closing completes. -/
theorem is_passable_spec (m : GameMap) (x y : ℤ) :
    (m.is_valid_position x y = false → m.is_passable x y = false) ∧
    ((m.grid x y).is_wall = true → (m.grid x y).behavior = none →
      m.is_passable x y = false) ∧
    (∀ d : DoorBehavior, m.is_valid_position x y = true →
      (m.grid x y).is_wall = true → (m.grid x y).behavior = some (.door d) →
      (m.is_passable x y = true ↔ d.door_open = true)) := by
  refine ⟨?_, ?_, ?_⟩
  · intro hv
    simp [GameMap.is_passable, GameMap.is_wall, hv]
  · intro hw hb
    by_cases hv : m.is_valid_position x y = true
    · simp [GameMap.is_passable, GameMap.is_wall, hv, hw, MapCell.door_is_open, hb]
    · have hv' : m.is_valid_position x y = false := by simpa using hv
      simp [GameMap.is_passable, GameMap.is_wall, hv']
  · intro d hv hw hb
    cases hopen : d.door_open <;>
      simp [GameMap.is_passable, GameMap.is_wall, hv, hw, MapCell.door_is_open, hb, hopen]

theorem is_passable_spec_witness :
    (closing_door_map.is_passable 0 0 = true ↔ closing_door_state.door_open = true) ∧
    closing_door_map.is_passable (-1) 0 = false ∧
    wall_map.is_passable 0 0 = false := by
  refine ⟨?_, ?_, ?_⟩
  · exact (is_passable_spec closing_door_map 0 0).2.2 closing_door_state (by decide) rfl rfl
  · exact (is_passable_spec closing_door_map (-1) 0).1 (by decide)
  · exact (is_passable_spec wall_map 0 0).2.1 rfl rfl

/-- Claim C2 (code-bug evidence): on the 3×3 map with a one-shot
Trigger at (2,1), a forward move from (1.5,1.5) facing +x is accepted
and lands on the trigger cell, yet the trigger's `triggered` flag is
still `false`: `Raycaster.move` (the only thing the main loop's
move-forward branch calls, `wizardry.py:1483`) touches no tile behavior,
and `StepHandler` (`wizardry.py:403`) is never instantiated anywhere in
the program — although `on_player_step`, had it been invoked, would have
fired (last conjunct). -/
theorem move_does_not_fire_trigger :
    (step_raycaster.move trigger_map true).pos_x = 5/2 ∧
    (step_raycaster.move trigger_map true).pos_y = 3/2 ∧
    (trigger_map.grid 2 1).behavior = some (.ifloor trigger_tile) ∧
    trigger_tile.triggered = false ∧
    (trigger_tile.on_player_step 0).1 = true := by
  have hmove : step_raycaster.move trigger_map true =
      { step_raycaster with pos_x := 5/2, pos_y := 3/2 } := by
    norm_num [Raycaster.move, step_raycaster, pyInt, trigger_map, GameMap.is_wall,
      GameMap.is_valid_position, MapCell.door_is_open]
  refine ⟨by rw [hmove], by rw [hmove], by norm_num [trigger_map], rfl, rfl⟩

/-- Claim C6 counterexample: for a door mid-opening at progress 1/2,
seen head-on at distance 2, the texture coordinate at the exact center
of the face (`wall_x = 0.5`, distance 0 from the center, well within the
claimed leaf half-width `0.5 × progress = 1/4`) renders the open gap
`" "`, not the opaque leaf character: in the code the
`0.5 × progress` half-width bounds the central **gap**, and the opaque
leaf is the region **farther** from the center. -/
theorem door_leaf_center_cex :
    |center_context.wall_x - 1/2| < (1/2) * anim_door.door_animation_progress ∧
    anim_door.leaf_threshold = (1/2) * anim_door.door_animation_progress ∧
    anim_door.door_animating = true ∧
    DoorRenderer.render_3d anim_door center_context = " " := by
  refine ⟨by norm_num [center_context, anim_door], ?_, rfl, ?_⟩
  · norm_num [anim_door, DoorBehavior.leaf_threshold]
  · norm_num [DoorRenderer.render_3d, DoorRenderer.frame_thickness, anim_door,
      center_context, DoorBehavior.leaf_threshold]

/-- Claim C6 (amended): for a door rendered mid-animation at a texture
coordinate inside the frame bands, the half-width
`0.5 × progress` (opening) / `0.5 × (1−progress)` (closing) — the
code's `leaf_threshold` — delimits the central **open gap**: a `wall_x`
whose distance from 0.5 is at most that half-width renders the gap
`" "`, and one strictly farther from 0.5 renders the opaque leaf
character (the orientation-dependent `"|"` or `"-"`). -/
theorem door_render_band_spec (b : DoorBehavior) (context : RenderContext)
    (hanim : b.door_animating = true)
    (hlo : DoorRenderer.frame_thickness context ≤ context.wall_x)
    (hhi : context.wall_x ≤ 1 - DoorRenderer.frame_thickness context) :
    (|context.wall_x - 1/2| ≤ b.leaf_threshold →
      DoorRenderer.render_3d b context = " ") ∧
    (b.leaf_threshold < |context.wall_x - 1/2| →
      DoorRenderer.render_3d b context =
        (if DoorRenderer.door_direction context = "vertical" then "|" else "-")) := by
  have hframe : ¬(context.wall_x < DoorRenderer.frame_thickness context ∨
      1 - DoorRenderer.frame_thickness context < context.wall_x) := by
    rintro (hc | hc) <;> linarith
  constructor
  · intro habs
    rw [abs_le] at habs
    have hgap : ¬(context.wall_x < 1/2 - b.leaf_threshold ∨
        1/2 + b.leaf_threshold < context.wall_x) := by
      rintro (hc | hc) <;> [linarith [habs.1]; linarith [habs.2]]
    simp only [DoorRenderer.render_3d, hanim, if_true]
    rw [if_neg hframe, if_neg hgap]
  · intro hgt
    have hgap : context.wall_x < 1/2 - b.leaf_threshold ∨
        1/2 + b.leaf_threshold < context.wall_x := by
      rcases lt_abs.mp hgt with hc | hc
      · right; linarith
      · left; linarith
    simp only [DoorRenderer.render_3d, hanim, if_true]
    rw [if_neg hframe, if_pos hgap]

theorem door_render_band_spec_witness :
    DoorRenderer.render_3d anim_door center_context = " " ∧
    DoorRenderer.render_3d anim_door edge_context =
      (if DoorRenderer.door_direction edge_context = "vertical" then "|" else "-") := by
  constructor
  · exact (door_render_band_spec anim_door center_context rfl
      (by norm_num [DoorRenderer.frame_thickness, center_context])
      (by norm_num [DoorRenderer.frame_thickness, center_context])).1
      (by refine abs_le.mpr ⟨?_, ?_⟩ <;>
        norm_num [anim_door, DoorBehavior.leaf_threshold, center_context])
  · exact (door_render_band_spec anim_door edge_context rfl
      (by norm_num [DoorRenderer.frame_thickness, edge_context])
      (by norm_num [DoorRenderer.frame_thickness, edge_context])).2
      (by refine lt_abs.mpr (Or.inr ?_);
          norm_num [anim_door, DoorBehavior.leaf_threshold, edge_context])

/-- Claim C7 counterexample: `get_cell` at the out-of-bounds coordinate
(-1, 0) returns Python `None` (`none`), not a boundary-wall sentinel
tile — refuting "get(x,y) returns a tile for every input". -/
theorem get_cell_oob_none_cex :
    floor_map.get_cell (-1) 0 = none ∧ floor_map.is_valid_position (-1) 0 = false := by
  constructor
  · simp [GameMap.get_cell, GameMap.is_valid_position, floor_map]
  · decide

/-- Claim C7 (amended): `get_cell` resolves every out-of-bounds query to
`None` (and only those); the fixed boundary-wall sentinel is
substituted by the ray caster instead, which checks validity before
touching the grid and terminates with `boundary_wall` as the recorded
surface tile whenever a DDA step leaves the grid. -/
theorem oob_boundary_resolution :
    (∀ (m : GameMap) (x y : ℤ), m.get_cell x y = none ↔ m.is_valid_position x y = false) ∧
    (∀ (rdx rdy : ℚ) (m : GameMap) (fuel : ℕ) (s : CastState),
      m.is_valid_position (castStep rdx rdy s).map_x (castStep rdx rdy s).map_y = false →
      castLoop rdx rdy m (fuel + 1) s =
        some { castStep rdx rdy s with cell := some boundary_wall }) := by
  constructor
  · intro m x y
    by_cases hv : m.is_valid_position x y = true
    · simp [GameMap.get_cell, hv]
    · have hv' : m.is_valid_position x y = false := by simpa using hv
      simp [GameMap.get_cell, hv']
  · intro rdx rdy m fuel s h
    simp [castLoop, h]

theorem oob_boundary_resolution_witness :
    floor_map.get_cell (-1) 0 = none ∧
    castLoop 1 1 tiny_map 5 oob_state =
      some { castStep 1 1 oob_state with cell := some boundary_wall } := by
  constructor
  · exact (oob_boundary_resolution.1 floor_map (-1) 0).mpr (by decide)
  · refine oob_boundary_resolution.2 1 1 tiny_map 4 oob_state ?_
    have hstep : castStep 1 1 oob_state =
        { oob_state with side_dist_x := xadd (some 1) (ray_length 1),
                         map_x := 1, side := 0 } := by
      norm_num [castStep, oob_state, xlt_some_none, stepOf]
    rw [hstep]
    decide

theorem castStep_perp (pos_x pos_y rdx rdy : ℚ)
    (hx1 : ((pyInt pos_x : ℤ) : ℚ) < pos_x) (hx2 : pos_x < (pyInt pos_x : ℚ) + 1)
    (hy1 : ((pyInt pos_y : ℤ) : ℚ) < pos_y) (hy2 : pos_y < (pyInt pos_y : ℚ) + 1)
    (hr : rdx ≠ 0 ∨ rdy ≠ 0)
    (s : CastState)
    (hsx : s.side_dist_x.isSome = true ↔ rdx ≠ 0)
    (hsy : s.side_dist_y.isSome = true ↔ rdy ≠ 0)
    (hxle : 0 ≤ rdx → pyInt pos_x ≤ s.map_x) (hxge : rdx < 0 → s.map_x ≤ pyInt pos_x)
    (hyle : 0 ≤ rdy → pyInt pos_y ≤ s.map_y) (hyge : rdy < 0 → s.map_y ≤ pyInt pos_y) :
    CastPerp rdx rdy pos_x pos_y (castStep rdx rdy s) := by
  unfold CastPerp castStep
  by_cases hlt : xlt s.side_dist_x s.side_dist_y = true
  · rw [if_pos hlt]
    have hsome : s.side_dist_x.isSome = true := by
      cases hx : s.side_dist_x with
      | none => rw [hx, xlt_none_left] at hlt; exact absurd hlt (by simp)
      | some a => rfl
    have hrdx : rdx ≠ 0 := hsx.mp hsome
    refine ⟨Or.inl rfl, fun _ => ⟨hrdx, ?_⟩, fun hcon => absurd hcon (by simp)⟩
    show 0 < (((s.map_x + stepOf rdx : ℤ) : ℚ) - pos_x + (1 - ((stepOf rdx : ℤ) : ℚ)) / 2) / rdx
    rcases le_or_lt 0 rdx with hge | hneg
    · have hstep : stepOf rdx = 1 := if_pos hge
      rw [hstep]
      have hm : pyInt pos_x ≤ s.map_x := hxle hge
      have hmq : ((pyInt pos_x : ℤ) : ℚ) ≤ ((s.map_x : ℤ) : ℚ) := by exact_mod_cast hm
      apply div_pos
      · push_cast
        linarith
      · exact lt_of_le_of_ne hge (Ne.symm hrdx)
    · have hstep : stepOf rdx = -1 := if_neg (not_le.mpr hneg)
      rw [hstep]
      have hm : s.map_x ≤ pyInt pos_x := hxge hneg
      have hmq : ((s.map_x : ℤ) : ℚ) ≤ ((pyInt pos_x : ℤ) : ℚ) := by exact_mod_cast hm
      apply div_pos_of_neg_of_neg
      · push_cast
        linarith
      · exact hneg
  · rw [if_neg hlt]
    have hrdy : rdy ≠ 0 := by
      rcases eq_or_ne rdy 0 with h0 | h0
      · exfalso
        have hnone : s.side_dist_y = none := by
          cases hy : s.side_dist_y with
          | none => rfl
          | some a => exact absurd h0 (hsy.mp (by rw [hy]; rfl))
        rcases hr with hx | hy'
        · have hsome : s.side_dist_x.isSome = true := hsx.mpr hx
          cases hxx : s.side_dist_x with
          | none => rw [hxx] at hsome; exact absurd hsome (by simp)
          | some a => rw [hxx, hnone] at hlt; exact hlt (xlt_some_none a)
        · exact hy' h0
      · exact h0
    refine ⟨Or.inr rfl, fun hcon => absurd hcon (by simp), fun _ => ⟨hrdy, ?_⟩⟩
    show 0 < (((s.map_y + stepOf rdy : ℤ) : ℚ) - pos_y + (1 - ((stepOf rdy : ℤ) : ℚ)) / 2) / rdy
    rcases le_or_lt 0 rdy with hge | hneg
    · have hstep : stepOf rdy = 1 := if_pos hge
      rw [hstep]
      have hm : pyInt pos_y ≤ s.map_y := hyle hge
      have hmq : ((pyInt pos_y : ℤ) : ℚ) ≤ ((s.map_y : ℤ) : ℚ) := by exact_mod_cast hm
      apply div_pos
      · push_cast
        linarith
      · exact lt_of_le_of_ne hge (Ne.symm hrdy)
    · have hstep : stepOf rdy = -1 := if_neg (not_le.mpr hneg)
      rw [hstep]
      have hm : s.map_y ≤ pyInt pos_y := hyge hneg
      have hmq : ((s.map_y : ℤ) : ℚ) ≤ ((pyInt pos_y : ℤ) : ℚ) := by exact_mod_cast hm
      apply div_pos_of_neg_of_neg
      · push_cast
        linarith
      · exact hneg

theorem castStep_inv (rdx rdy pos_x pos_y : ℚ) (s : CastState)
    (h : CastInv rdx rdy pos_x pos_y s) :
    CastInv rdx rdy pos_x pos_y (castStep rdx rdy s) := by
  obtain ⟨hsx, hsy, hxle, hxge, hyle, hyge⟩ := h
  unfold CastInv castStep
  by_cases hlt : xlt s.side_dist_x s.side_dist_y = true
  · rw [if_pos hlt]
    refine ⟨?_, hsy, ?_, ?_, hyle, hyge⟩
    · show (xadd s.side_dist_x (ray_length rdx)).isSome = true ↔ rdx ≠ 0
      rw [xadd_isSome, Bool.and_eq_true]
      constructor
      · rintro ⟨h1, _⟩; exact hsx.mp h1
      · intro h1; exact ⟨hsx.mpr h1, (ray_length_isSome rdx).mpr h1⟩
    · intro hge
      have hstep : stepOf rdx = 1 := if_pos hge
      show pyInt pos_x ≤ s.map_x + stepOf rdx
      rw [hstep]
      have := hxle hge
      omega
    · intro hneg
      have hstep : stepOf rdx = -1 := if_neg (not_le.mpr hneg)
      show s.map_x + stepOf rdx ≤ pyInt pos_x
      rw [hstep]
      have := hxge hneg
      omega
  · rw [if_neg hlt]
    refine ⟨hsx, ?_, hxle, hxge, ?_, ?_⟩
    · show (xadd s.side_dist_y (ray_length rdy)).isSome = true ↔ rdy ≠ 0
      rw [xadd_isSome, Bool.and_eq_true]
      constructor
      · rintro ⟨h1, _⟩; exact hsy.mp h1
      · intro h1; exact ⟨hsy.mpr h1, (ray_length_isSome rdy).mpr h1⟩
    · intro hge
      have hstep : stepOf rdy = 1 := if_pos hge
      show pyInt pos_y ≤ s.map_y + stepOf rdy
      rw [hstep]
      have := hyle hge
      omega
    · intro hneg
      have hstep : stepOf rdy = -1 := if_neg (not_le.mpr hneg)
      show s.map_y + stepOf rdy ≤ pyInt pos_y
      rw [hstep]
      have := hyge hneg
      omega

theorem xRem_step_pos (rd : ℚ) (bound mx : ℤ) (hge : 0 ≤ rd) (hb : mx + 1 < bound) :
    xRem rd bound (mx + stepOf rd) + 1 = xRem rd bound mx := by
  have hstep : stepOf rd = 1 := if_pos hge
  rw [hstep]
  unfold xRem
  rw [if_pos hge, if_pos hge]
  omega

theorem xRem_step_neg (rd : ℚ) (bound mx : ℤ) (hneg : rd < 0) (h0 : 0 ≤ mx - 1) :
    xRem rd bound (mx + stepOf rd) + 1 = xRem rd bound mx := by
  have hstep : stepOf rd = -1 := if_neg (not_le.mpr hneg)
  rw [hstep]
  unfold xRem
  rw [if_neg (not_le.mpr hneg), if_neg (not_le.mpr hneg)]
  omega

theorem castStep_measure (rdx rdy : ℚ) (m : GameMap) (s : CastState)
    (hval : m.is_valid_position (castStep rdx rdy s).map_x (castStep rdx rdy s).map_y = true) :
    castMeasure rdx rdy m (castStep rdx rdy s) + 1 = castMeasure rdx rdy m s := by
  unfold castStep at hval ⊢
  by_cases hlt : xlt s.side_dist_x s.side_dist_y = true
  · rw [if_pos hlt] at hval ⊢
    have hv : 0 ≤ s.map_x + stepOf rdx ∧ s.map_x + stepOf rdx < m.height ∧
        0 ≤ s.map_y ∧ s.map_y < m.width := by
      simpa [GameMap.is_valid_position] using hval
    show xRem rdx m.height (s.map_x + stepOf rdx) + xRem rdy m.width s.map_y + 1 =
      xRem rdx m.height s.map_x + xRem rdy m.width s.map_y
    rcases le_or_lt 0 rdx with hge | hneg
    · have hs1 : stepOf rdx = 1 := if_pos hge
      have := xRem_step_pos rdx m.height s.map_x hge (by rw [hs1] at hv; omega)
      omega
    · have hs1 : stepOf rdx = -1 := if_neg (not_le.mpr hneg)
      have := xRem_step_neg rdx m.height s.map_x hneg (by rw [hs1] at hv; omega)
      omega
  · rw [if_neg hlt] at hval ⊢
    have hv : 0 ≤ s.map_x ∧ s.map_x < m.height ∧
        0 ≤ s.map_y + stepOf rdy ∧ s.map_y + stepOf rdy < m.width := by
      simpa [GameMap.is_valid_position] using hval
    show xRem rdx m.height s.map_x + xRem rdy m.width (s.map_y + stepOf rdy) + 1 =
      xRem rdx m.height s.map_x + xRem rdy m.width s.map_y
    rcases le_or_lt 0 rdy with hge | hneg
    · have hs1 : stepOf rdy = 1 := if_pos hge
      have := xRem_step_pos rdy m.width s.map_y hge (by rw [hs1] at hv; omega)
      omega
    · have hs1 : stepOf rdy = -1 := if_neg (not_le.mpr hneg)
      have := xRem_step_neg rdy m.width s.map_y hneg (by rw [hs1] at hv; omega)
      omega

theorem castLoop_total
    (m : GameMap) (pos_x pos_y rdx rdy : ℚ)
    (hx1 : ((pyInt pos_x : ℤ) : ℚ) < pos_x) (hx2 : pos_x < (pyInt pos_x : ℚ) + 1)
    (hy1 : ((pyInt pos_y : ℤ) : ℚ) < pos_y) (hy2 : pos_y < (pyInt pos_y : ℚ) + 1)
    (hr : rdx ≠ 0 ∨ rdy ≠ 0) :
    ∀ (fuel : ℕ) (s : CastState), CastInv rdx rdy pos_x pos_y s →
      castMeasure rdx rdy m s + 1 ≤ fuel →
      ∃ t, castLoop rdx rdy m fuel s = some t ∧ CastPost rdx rdy pos_x pos_y t := by
  intro fuel
  induction fuel with
  | zero => intro s _ hμ; omega
  | succ n ih =>
    intro s hInv hμ
    have hperp : CastPerp rdx rdy pos_x pos_y (castStep rdx rdy s) :=
      castStep_perp pos_x pos_y rdx rdy hx1 hx2 hy1 hy2 hr s hInv.1 hInv.2.1
        hInv.2.2.1 hInv.2.2.2.1 hInv.2.2.2.2.1 hInv.2.2.2.2.2
    by_cases hval :
        m.is_valid_position (castStep rdx rdy s).map_x (castStep rdx rdy s).map_y = true
    · by_cases hdoor :
          (m.grid (castStep rdx rdy s).map_x (castStep rdx rdy s).map_y).door_blocking = true
      · refine ⟨{ castStep rdx rdy s with
            cell := some (m.grid (castStep rdx rdy s).map_x (castStep rdx rdy s).map_y),
            door_cell := some (m.grid (castStep rdx rdy s).map_x (castStep rdx rdy s).map_y) },
          ?_, ⟨rfl, hperp⟩⟩
        simp only [castLoop]
        rw [if_neg (by simp [hval]), if_pos hdoor]
      · by_cases hwall :
            (m.grid (castStep rdx rdy s).map_x (castStep rdx rdy s).map_y).is_wall = true
        · refine ⟨{ castStep rdx rdy s with
              cell := some (m.grid (castStep rdx rdy s).map_x (castStep rdx rdy s).map_y) },
            ?_, ⟨rfl, hperp⟩⟩
          simp only [castLoop]
          rw [if_neg (by simp [hval]), if_neg hdoor, if_pos hwall]
        · have hmeas := castStep_measure rdx rdy m s hval
          have hinv' := castStep_inv rdx rdy pos_x pos_y s hInv
          have hmeas2 : castMeasure rdx rdy m
              { castStep rdx rdy s with
                cell := some (m.grid (castStep rdx rdy s).map_x (castStep rdx rdy s).map_y) } =
              castMeasure rdx rdy m (castStep rdx rdy s) := rfl
          obtain ⟨t, hrec, hpost⟩ := ih
            { castStep rdx rdy s with
              cell := some (m.grid (castStep rdx rdy s).map_x (castStep rdx rdy s).map_y) }
            hinv' (by omega)
          refine ⟨t, ?_, hpost⟩
          simp only [castLoop]
          rw [if_neg (by simp [hval]), if_neg hdoor, if_neg hwall]
          exact hrec
    · have hval' :
          m.is_valid_position (castStep rdx rdy s).map_x (castStep rdx rdy s).map_y = false := by
        simpa using hval
      refine ⟨{ castStep rdx rdy s with cell := some boundary_wall }, ?_, ⟨rfl, hperp⟩⟩
      simp only [castLoop]
      rw [if_pos (by simp [hval'])]

theorem castInit_inv (pos_x pos_y rdx rdy : ℚ) :
    CastInv rdx rdy pos_x pos_y (castInit pos_x pos_y rdx rdy) := by
  unfold CastInv castInit
  refine ⟨?_, ?_, fun _ => le_refl _, fun _ => le_refl _, fun _ => le_refl _, fun _ => le_refl _⟩
  · by_cases h : rdx < 0 <;> simp [h, xscale_isSome, ray_length_isSome]
  · by_cases h : rdy < 0 <;> simp [h, xscale_isSome, ray_length_isSome]

theorem castInit_measure (m : GameMap) (pos_x pos_y rdx rdy : ℚ)
    (hx0 : 0 ≤ pyInt pos_x) (hxh : pyInt pos_x < m.height)
    (hy0 : 0 ≤ pyInt pos_y) (hyw : pyInt pos_y < m.width) :
    castMeasure rdx rdy m (castInit pos_x pos_y rdx rdy) + 1 ≤ castFuel m := by
  unfold castMeasure castFuel xRem castInit
  dsimp only
  split_ifs <;> omega

theorem castFinish_side0 (pos_x pos_y dir_x dir_y rdx rdy : ℚ) (s : CastState)
    (hs : s.side = 0) (hrdx : rdx ≠ 0) :
    castFinish pos_x pos_y dir_x dir_y rdx rdy s =
      some { cell := (match s.door_cell with | some d => d | none => s.cell.getD boundary_wall),
             side := s.side, ray_dir_x := rdx, ray_dir_y := rdy,
             wall_x := (pos_y + (((s.map_x : ℚ) - pos_x + (1 - ((stepOf rdx : ℤ) : ℚ)) / 2) / rdx) * rdy) -
                       ⌊(pos_y + (((s.map_x : ℚ) - pos_x + (1 - ((stepOf rdx : ℤ) : ℚ)) / 2) / rdx) * rdy)⌋,
             distance := ((s.map_x : ℚ) - pos_x + (1 - ((stepOf rdx : ℤ) : ℚ)) / 2) / rdx,
             player_dir_x := dir_x, player_dir_y := dir_y } := by
  unfold castFinish
  rw [hs]
  simp [hrdx]

theorem castFinish_side1 (pos_x pos_y dir_x dir_y rdx rdy : ℚ) (s : CastState)
    (hs : s.side = 1) (hrdy : rdy ≠ 0) :
    castFinish pos_x pos_y dir_x dir_y rdx rdy s =
      some { cell := (match s.door_cell with | some d => d | none => s.cell.getD boundary_wall),
             side := s.side, ray_dir_x := rdx, ray_dir_y := rdy,
             wall_x := (pos_x + (((s.map_y : ℚ) - pos_y + (1 - ((stepOf rdy : ℤ) : ℚ)) / 2) / rdy) * rdx) -
                       ⌊(pos_x + (((s.map_y : ℚ) - pos_y + (1 - ((stepOf rdy : ℤ) : ℚ)) / 2) / rdy) * rdx)⌋,
             distance := ((s.map_y : ℚ) - pos_y + (1 - ((stepOf rdy : ℤ) : ℚ)) / 2) / rdy,
             player_dir_x := dir_x, player_dir_y := dir_y } := by
  unfold castFinish
  rw [hs]
  simp [hrdy]

theorem castRay_spec (m : GameMap) (pos_x pos_y dir_x dir_y rdx rdy : ℚ)
    (hx0 : 0 ≤ pyInt pos_x) (hxh : pyInt pos_x < m.height)
    (hy0 : 0 ≤ pyInt pos_y) (hyw : pyInt pos_y < m.width)
    (hx1 : ((pyInt pos_x : ℤ) : ℚ) < pos_x) (hx2 : pos_x < (pyInt pos_x : ℚ) + 1)
    (hy1 : ((pyInt pos_y : ℤ) : ℚ) < pos_y) (hy2 : pos_y < (pyInt pos_y : ℚ) + 1)
    (hr : rdx ≠ 0 ∨ rdy ≠ 0) :
    ∃ hit, castRay m pos_x pos_y dir_x dir_y rdx rdy = some hit ∧ 0 < hit.distance ∧
      (hit.side = 0 ∨ hit.side = 1) ∧
      (hit.side = 0 → rdx ≠ 0) ∧ (hit.side = 1 → rdy ≠ 0) := by
  obtain ⟨t, hloop, hpost⟩ := castLoop_total m pos_x pos_y rdx rdy hx1 hx2 hy1 hy2 hr
    (castFuel m) (castInit pos_x pos_y rdx rdy)
    (castInit_inv pos_x pos_y rdx rdy)
    (castInit_measure m pos_x pos_y rdx rdy hx0 hxh hy0 hyw)
  obtain ⟨hcell, hside01, h0, h1⟩ := hpost
  rcases hside01 with hs | hs
  · obtain ⟨hrdx, hdist⟩ := h0 hs
    exact ⟨_,
      by unfold castRay; rw [hloop];
         exact castFinish_side0 pos_x pos_y dir_x dir_y rdx rdy t hs hrdx,
      hdist, Or.inl hs, fun _ => hrdx, fun hcon => absurd hcon (by simp [hs])⟩
  · obtain ⟨hrdy, hdist⟩ := h1 hs
    exact ⟨_,
      by unfold castRay; rw [hloop];
         exact castFinish_side1 pos_x pos_y dir_x dir_y rdx rdy t hs hrdy,
      hdist, Or.inr hs, fun hcon => absurd hcon (by simp [hs]), fun _ => hrdy⟩

/-- Claim C3: for every position strictly inside an in-bounds grid cell
and every ray direction with at least one nonzero component, the DDA
cast terminates within `height + width + 1` steps (out-of-bounds steps
become boundary-wall hits), no division fault occurs, and the returned
perpendicular distance is strictly positive. -/
theorem cast_terminates_pos_dist (m : GameMap) (pos_x pos_y dir_x dir_y rdx rdy : ℚ)
    (hx0 : 0 ≤ pyInt pos_x) (hxh : pyInt pos_x < m.height)
    (hy0 : 0 ≤ pyInt pos_y) (hyw : pyInt pos_y < m.width)
    (hx1 : ((pyInt pos_x : ℤ) : ℚ) < pos_x) (hx2 : pos_x < (pyInt pos_x : ℚ) + 1)
    (hy1 : ((pyInt pos_y : ℤ) : ℚ) < pos_y) (hy2 : pos_y < (pyInt pos_y : ℚ) + 1)
    (hr : rdx ≠ 0 ∨ rdy ≠ 0) :
    ∃ hit, castRay m pos_x pos_y dir_x dir_y rdx rdy = some hit ∧ 0 < hit.distance := by
  obtain ⟨hit, heq, hdist, _⟩ :=
    castRay_spec m pos_x pos_y dir_x dir_y rdx rdy hx0 hxh hy0 hyw hx1 hx2 hy1 hy2 hr
  exact ⟨hit, heq, hdist⟩

theorem cast_terminates_pos_dist_witness :
    ∃ hit, castRay floor_map (3/2) (3/2) 1 0 1 1 = some hit ∧ 0 < hit.distance :=
  cast_terminates_pos_dist floor_map (3/2) (3/2) 1 0 1 1
    (by norm_num [pyInt]) (by norm_num [pyInt, floor_map])
    (by norm_num [pyInt]) (by norm_num [pyInt, floor_map])
    (by norm_num [pyInt]) (by norm_num [pyInt])
    (by norm_num [pyInt]) (by norm_num [pyInt])
    (Or.inl (by norm_num))

/-- Claim C8: for a ray with exactly one zero component cast from a
position strictly inside an in-bounds cell, the zero axis receives the
infinite sentinel step length (`ray_length 0 = none`, modelling
`float('inf')`), the cast completes without a division fault (a `some`
result — the modelled `ZeroDivisionError` is `none`), and the zero axis
is never the terminating side, so the final perpendicular-distance
division is by the nonzero component only. -/
theorem cast_degenerate_axis_safe (m : GameMap) (pos_x pos_y dir_x dir_y rdx rdy : ℚ)
    (hx0 : 0 ≤ pyInt pos_x) (hxh : pyInt pos_x < m.height)
    (hy0 : 0 ≤ pyInt pos_y) (hyw : pyInt pos_y < m.width)
    (hx1 : ((pyInt pos_x : ℤ) : ℚ) < pos_x) (hx2 : pos_x < (pyInt pos_x : ℚ) + 1)
    (hy1 : ((pyInt pos_y : ℤ) : ℚ) < pos_y) (hy2 : pos_y < (pyInt pos_y : ℚ) + 1)
    (hdeg : (rdx = 0 ∧ rdy ≠ 0) ∨ (rdx ≠ 0 ∧ rdy = 0)) :
    ray_length 0 = none ∧
    ∃ hit, castRay m pos_x pos_y dir_x dir_y rdx rdy = some hit ∧ 0 < hit.distance ∧
      (rdx = 0 → hit.side = 1) ∧ (rdy = 0 → hit.side = 0) := by
  have hr : rdx ≠ 0 ∨ rdy ≠ 0 := by
    rcases hdeg with ⟨_, h⟩ | ⟨h, _⟩
    · exact Or.inr h
    · exact Or.inl h
  obtain ⟨hit, heq, hdist, hside01, hs0, hs1⟩ :=
    castRay_spec m pos_x pos_y dir_x dir_y rdx rdy hx0 hxh hy0 hyw hx1 hx2 hy1 hy2 hr
  refine ⟨by simp [ray_length], hit, heq, hdist, ?_, ?_⟩
  · intro hx
    rcases hside01 with h | h
    · exact absurd hx (hs0 h)
    · exact h
  · intro hy
    rcases hside01 with h | h
    · exact h
    · exact absurd hy (hs1 h)

theorem cast_degenerate_axis_safe_witness :
    ray_length 0 = none ∧
    ∃ hit, castRay floor_map (3/2) (3/2) 1 0 0 1 = some hit ∧ 0 < hit.distance ∧
      ((0 : ℚ) = 0 → hit.side = 1) ∧ ((1 : ℚ) = 0 → hit.side = 0) :=
  cast_degenerate_axis_safe floor_map (3/2) (3/2) 1 0 0 1
    (by norm_num [pyInt]) (by norm_num [pyInt, floor_map])
    (by norm_num [pyInt]) (by norm_num [pyInt, floor_map])
    (by norm_num [pyInt]) (by norm_num [pyInt])
    (by norm_num [pyInt]) (by norm_num [pyInt])
    (Or.inl ⟨rfl, by norm_num⟩)

end Wizardry
